import Mathlib

/-!
Shallow embedding of the ChaseHome session/room synchronization engine
(server-js: roomManager.js, models.js, config.js, index.js).

The Mongo collections (Room, User, GameEvent) are modelled as lists; a
`findOne` is `List.find?`, a `save` of an existing document replaces the
first document the preceding `findOne` located, and an insert appends.
Dates are modelled as a `Nat` clock value passed in by the caller, and
the randomly generated ids (room ids) are passed in as parameters.
Event-log appends (`logGameEvent`) swallow their own failures, so each
mutating operation takes an `appendOk` flag saying whether the append
succeeded; the flag reaches no other part of the operation.
-/

/-- Player subdocument of a room (models.js playerStateSchema). -/
structure PlayerState where
  userId : String
  username : String
  x : Int
  y : Int
  isActive : Bool
  lastSeen : Nat
deriving DecidableEq, Repr

/-- Room document (models.js roomSchema). -/
structure Room where
  roomId : String
  name : String
  hostUserId : String
  players : List PlayerState
  maxPlayers : Nat
  currentHouse : Int
  currentFloor : Int
  activeTasks : List String
  completedTasks : List String
  isActive : Bool
  gameStarted : Bool
  lastActivity : Nat
deriving DecidableEq, Repr

/-- User document, the fields the room manager touches (models.js userSchema). -/
structure UserRec where
  uid : String
  username : String
  completedTasks : List String
deriving DecidableEq, Repr

/-- Task catalog entry, the fields the room manager reads (models.js taskSchema). -/
structure TaskRec where
  taskId : String
  houseId : Int
  floor : Int
deriving DecidableEq, Repr

/-- Payload of a logged game event (roomManager.js logGameEvent call sites). -/
inductive EventData where
  | gameStart (roomName hostUsername : String)
  | playerJoin (username : String)
  | playerLeave
  | taskComplete (taskId : String)
  | houseChange (newHouseId : Int)
  | floorComplete (house floor : Int)
deriving DecidableEq, Repr

/-- Game event document (models.js gameEventSchema). -/
structure GameEvent where
  roomId : String
  userId : String
  eventType : String
  eventData : EventData
deriving DecidableEq, Repr

/-- The game settings of config.js used by the room manager. -/
structure Config where
  MAX_PLAYERS_PER_ROOM : Nat
  MAX_ROOMS : Nat
  ROOM_TIMEOUT : Nat

/-- config.js values. -/
def config : Config :=
  { MAX_PLAYERS_PER_ROOM := 5, MAX_ROOMS := 100, ROOM_TIMEOUT := 30 * 60 * 1000 }

/-- Combined state of the Mongo collections and the RoomManager caches
(`activeRooms`, `connectedPlayers`). -/
structure ManagerState where
  rooms : List Room
  users : List UserRec
  events : List GameEvent
  activeRooms : List (String × Room)
  connectedPlayers : List (String × List String)
deriving DecidableEq, Repr

/-- Replace the first element satisfying `p` by its image under `f`
(Mongo updates the single document a query locates). -/
def updateFirst {α : Type} (p : α → Bool) (f : α → α) : List α → List α
  | [] => []
  | x :: xs => if p x then f x :: xs else x :: updateFirst p f xs

/-- JS `Map.prototype.set`: replace the value at a present key, else append. -/
def assocSet {β : Type} (m : List (String × β)) (k : String) (v : β) :
    List (String × β) :=
  if m.any (fun p => p.1 == k) then
    m.map (fun p => if p.1 == k then (k, v) else p)
  else m ++ [(k, v)]

/-- JS `Map.prototype.get` as an `Option`. -/
def assocGet {β : Type} (m : List (String × β)) (k : String) : Option β :=
  (m.find? (fun p => p.1 == k)).map (fun p => p.2)

/-- JS `Map.prototype.delete`. -/
def assocDelete {β : Type} (m : List (String × β)) (k : String) :
    List (String × β) :=
  m.filter (fun p => p.1 != k)

/-- JS `Set.prototype.add` on an insertion-ordered set. -/
def setAdd (s : List String) (x : String) : List String :=
  if s.contains x then s else s ++ [x]

/-- JS `Set.prototype.delete`. -/
def setDelete (s : List String) (x : String) : List String :=
  s.filter (fun y => y != x)

/-- `Room.findOne({ roomId, isActive: true })`. -/
def findActiveRoom (rooms : List Room) (roomId : String) : Option Room :=
  rooms.find? (fun r => r.roomId == roomId && r.isActive)

/-- `Room.findOne({ hostUserId, isActive: true })` (createRoom's lookup). -/
def findActiveRoomByHost (rooms : List Room) (hostUserId : String) : Option Room :=
  rooms.find? (fun r => r.hostUserId == hostUserId && r.isActive)

/-- `room.save()` on a document previously located by
`findOne({ roomId, isActive: true })`: the first matching document is
replaced by the mutated one. -/
def saveRoom (rooms : List Room) (roomId : String) (room' : Room) : List Room :=
  updateFirst (fun r => r.roomId == roomId && r.isActive) (fun _ => room') rooms

/-- `logGameEvent(roomId, userId, eventType, eventData)`: builds a GameEvent
and saves it, catching (and swallowing) any error.  `appendOk` records
whether the save succeeded; on failure nothing changes. -/
def logGameEvent (appendOk : Bool) (st : ManagerState)
    (roomId userId eventType : String) (eventData : EventData) : ManagerState :=
  if appendOk then
    { st with events := st.events ++ [⟨roomId, userId, eventType, eventData⟩] }
  else st

/-- The fresh Room document built by createRoom (roomManager.js lines 28-41),
with schema defaults for the unset fields. -/
def newRoomDoc (roomName hostUserId hostUsername newRoomId : String)
    (now : Nat) : Room :=
  { roomId := newRoomId
    name := roomName
    hostUserId := hostUserId
    players := [⟨hostUserId, hostUsername, 100, 100, true, now⟩]
    maxPlayers := 5
    currentHouse := 1
    currentFloor := 1
    activeTasks := []
    completedTasks := []
    isActive := true
    gameStarted := false
    lastActivity := now }

/-- `RoomManager.createRoom(roomName, hostUserId, hostUsername)`;
`newRoomId` stands for the randomly generated room id. -/
def createRoom (appendOk : Bool) (st : ManagerState)
    (roomName hostUserId hostUsername newRoomId : String) (now : Nat) :
    ManagerState × Option String :=
  match findActiveRoomByHost st.rooms hostUserId with
  | some existingRoom => (st, some existingRoom.roomId)
  | none =>
    let room := newRoomDoc roomName hostUserId hostUsername newRoomId now
    let st1 := { st with
      rooms := st.rooms ++ [room]
      activeRooms := assocSet st.activeRooms room.roomId room
      connectedPlayers := assocSet st.connectedPlayers room.roomId [hostUserId] }
    let st2 := logGameEvent appendOk st1 room.roomId hostUserId "game_start"
      (.gameStart roomName hostUsername)
    (st2, some room.roomId)

/-- `RoomManager.joinRoom(roomId, userId, username)`. -/
def joinRoom (appendOk : Bool) (st : ManagerState)
    (roomId userId username : String) (now : Nat) : ManagerState × Bool :=
  match findActiveRoom st.rooms roomId with
  | none => (st, false)
  | some room =>
    if room.players.length ≥ config.MAX_PLAYERS_PER_ROOM then
      (st, false)
    else
      let players' :=
        if room.players.any (fun p => p.userId == userId) then
          updateFirst (fun p => p.userId == userId)
            (fun p => { p with isActive := true, lastSeen := now }) room.players
        else
          room.players ++ [⟨userId, username, 100, 100, true, now⟩]
      let room' := { room with players := players', lastActivity := now }
      let cp :=
        if st.connectedPlayers.any (fun p => p.1 == roomId) then st.connectedPlayers
        else st.connectedPlayers ++ [(roomId, [])]
      let cp' := cp.map (fun p => if p.1 == roomId then (p.1, setAdd p.2 userId) else p)
      let st1 := { st with
        rooms := saveRoom st.rooms roomId room'
        activeRooms := assocSet st.activeRooms roomId room'
        connectedPlayers := cp' }
      let st2 := logGameEvent appendOk st1 roomId userId "player_join"
        (.playerJoin username)
      (st2, true)

/-- `RoomManager.leaveRoom(roomId, userId)`. -/
def leaveRoom (appendOk : Bool) (st : ManagerState)
    (roomId userId : String) (now : Nat) : ManagerState × Bool :=
  match findActiveRoom st.rooms roomId with
  | none => (st, false)
  | some room =>
    let players' := room.players.filter (fun p => p.userId != userId)
    let isActive' :=
      if players'.length == 0 || room.hostUserId == userId then false
      else room.isActive
    let room' := { room with
      players := players', isActive := isActive', lastActivity := now }
    let hasKey := st.connectedPlayers.any (fun p => p.1 == roomId)
    let cp1 :=
      if hasKey then
        st.connectedPlayers.map
          (fun p => if p.1 == roomId then (p.1, setDelete p.2 userId) else p)
      else st.connectedPlayers
    let nowEmpty := hasKey && ((assocGet cp1 roomId).getD []).isEmpty
    let cp2 := if nowEmpty then assocDelete cp1 roomId else cp1
    let ar' := if nowEmpty then assocDelete st.activeRooms roomId else st.activeRooms
    let st1 := { st with
      rooms := saveRoom st.rooms roomId room'
      activeRooms := ar'
      connectedPlayers := cp2 }
    let st2 := logGameEvent appendOk st1 roomId userId "player_leave" .playerLeave
    (st2, true)

/-- `RoomManager.updatePlayerPosition(roomId, userId, x, y)` (no event logged). -/
def updatePlayerPosition (st : ManagerState) (roomId userId : String)
    (x y : Int) (now : Nat) : ManagerState × Bool :=
  match findActiveRoom st.rooms roomId with
  | none => (st, false)
  | some room =>
    if room.players.any (fun p => p.userId == userId) then
      let players' := updateFirst (fun p => p.userId == userId)
        (fun p => { p with x := x, y := y, lastSeen := now }) room.players
      let room' := { room with players := players', lastActivity := now }
      let st1 := { st with
        rooms := saveRoom st.rooms roomId room'
        activeRooms := assocSet st.activeRooms roomId room' }
      (st1, true)
    else (st, false)

/-- `RoomManager.completeTask(roomId, userId, taskId)`. -/
def completeTask (appendOk : Bool) (st : ManagerState)
    (roomId userId taskId : String) (now : Nat) : ManagerState × Bool :=
  match findActiveRoom st.rooms roomId with
  | none => (st, false)
  | some room =>
    if room.completedTasks.contains taskId then
      (st, false)
    else
      let room' := { room with
        completedTasks := room.completedTasks ++ [taskId]
        activeTasks := room.activeTasks.filter (fun id => id != taskId)
        lastActivity := now }
      let users' := updateFirst (fun u => u.uid == userId)
        (fun u => { u with completedTasks := setAdd u.completedTasks taskId }) st.users
      let st1 := { st with rooms := saveRoom st.rooms roomId room', users := users' }
      let st2 := logGameEvent appendOk st1 roomId userId "task_complete"
        (.taskComplete taskId)
      let st3 := { st2 with activeRooms := assocSet st2.activeRooms roomId room' }
      (st3, true)

/-- `RoomManager.checkFloorCompletion(roomId)`; `catalog` is the Task
collection (`Task.find({houseId, floor})` is a filter over it). -/
def checkFloorCompletion (appendOk : Bool) (catalog : List TaskRec)
    (st : ManagerState) (roomId : String) : ManagerState × Bool :=
  match findActiveRoom st.rooms roomId with
  | none => (st, false)
  | some room =>
    let floorTasks := catalog.filter
      (fun t => t.houseId == room.currentHouse && t.floor == room.currentFloor)
    let requiredTaskIds := floorTasks.map (fun t => t.taskId)
    let allCompleted := requiredTaskIds.all
      (fun taskId => room.completedTasks.contains taskId)
    let st' :=
      if allCompleted then
        logGameEvent appendOk st roomId room.hostUserId "floor_complete"
          (.floorComplete room.currentHouse room.currentFloor)
      else st
    (st', allCompleted)

/-- `RoomManager.changeHouse(roomId, houseId)`. -/
def changeHouse (appendOk : Bool) (st : ManagerState)
    (roomId : String) (houseId : Int) (now : Nat) : ManagerState × Bool :=
  match findActiveRoom st.rooms roomId with
  | none => (st, false)
  | some room =>
    let room' := { room with
      currentHouse := houseId
      currentFloor := 1
      completedTasks := []
      activeTasks := []
      lastActivity := now }
    let st1 := { st with rooms := saveRoom st.rooms roomId room' }
    let st2 := logGameEvent appendOk st1 roomId room.hostUserId "house_change"
      (.houseChange houseId)
    let st3 := { st2 with activeRooms := assocSet st2.activeRooms roomId room' }
    (st3, true)

/-- State of the ConnectionManager in index.js (userId → socket map keys,
userId → roomId map). -/
structure ConnectionState where
  activeConnections : List String
  userRooms : List (String × String)
deriving DecidableEq, Repr

/-- `ConnectionManager.disconnect(userId)`. -/
def connDisconnect (conn : ConnectionState) (userId : String) : ConnectionState :=
  { conn with
    activeConnections := conn.activeConnections.filter (fun u => u != userId)
    userRooms := assocDelete conn.userRooms userId }

/-- The socket `disconnect` handler (index.js lines 582-597): if the socket
is authenticated and mapped to a room, call `leaveRoom` immediately, then
drop the connection-manager entries.  `userId` is `socket.userId`
(`none` when the socket never authenticated). -/
def handleDisconnect (appendOk : Bool) (st : ManagerState)
    (conn : ConnectionState) (userId : Option String) (now : Nat) :
    ManagerState × ConnectionState :=
  match userId with
  | none => (st, conn)
  | some uid =>
    let st' :=
      match assocGet conn.userRooms uid with
      | some roomId => (leaveRoom appendOk st roomId uid now).1
      | none => st
    (st', connDisconnect conn uid)

/-- Room ids are pairwise distinct (the schema declares `roomId` unique). -/
def roomIdsUnique : List Room → Bool
  | [] => true
  | r :: rest => (!rest.any (fun x => x.roomId == r.roomId)) && roomIdsUnique rest

/-- The completed-task and active-task lists of a room share no task id. -/
def tasksDisjoint (r : Room) : Prop :=
  ∀ t, t ∈ r.completedTasks → t ∉ r.activeTasks

theorem updateFirst_length {α : Type} (p : α → Bool) (f : α → α) (l : List α) :
    (updateFirst p f l).length = l.length := by
  induction l with
  | nil => rfl
  | cons x xs ih => cases h : p x <;> simp [updateFirst, h, ih]

theorem mem_updateFirst {α : Type} (p : α → Bool) (f : α → α) (l : List α) (x : α)
    (hx : x ∈ updateFirst p f l) : x ∈ l ∨ ∃ y, y ∈ l ∧ x = f y := by
  induction l with
  | nil => simp [updateFirst] at hx
  | cons a as ih =>
    cases h : p a with
    | true =>
      simp [updateFirst, h] at hx
      rcases hx with hx | hx
      · exact Or.inr ⟨a, List.mem_cons_self a as, hx⟩
      · exact Or.inl (List.mem_cons_of_mem a hx)
    | false =>
      simp [updateFirst, h] at hx
      rcases hx with hx | hx
      · exact Or.inl (hx ▸ List.mem_cons_self a as)
      · rcases ih hx with h' | ⟨y, hy, hxy⟩
        · exact Or.inl (List.mem_cons_of_mem a h')
        · exact Or.inr ⟨y, List.mem_cons_of_mem a hy, hxy⟩

theorem mem_updateFirst_of_neg {α : Type} (p : α → Bool) (f : α → α) (l : List α)
    (x : α) (hp : p x = false) (hx : x ∈ l) : x ∈ updateFirst p f l := by
  induction l with
  | nil => simp at hx
  | cons a as ih =>
    rcases List.mem_cons.mp hx with rfl | hmem
    · simp [updateFirst, hp]
    · cases h : p a with
      | true =>
        simp only [updateFirst, h, if_true]
        exact List.mem_cons_of_mem _ hmem
      | false =>
        simp only [updateFirst, h, if_false, Bool.false_eq_true]
        exact List.mem_cons_of_mem _ (ih hmem)

theorem find?_updateFirst {α : Type} (p : α → Bool) (f : α → α) (l : List α) (a : α)
    (h : l.find? p = some a) (hf : p (f a) = true) :
    (updateFirst p f l).find? p = some (f a) := by
  induction l with
  | nil => simp at h
  | cons x xs ih =>
    cases hpx : p x with
    | true =>
      rw [List.find?_cons_of_pos _ hpx] at h
      injection h with h
      subst h
      simp [updateFirst, hpx, List.find?_cons_of_pos _ hf]
    | false =>
      have hneg : ¬ p x = true := by simp [hpx]
      rw [List.find?_cons_of_neg _ hneg] at h
      have hred : updateFirst p f (x :: xs) = x :: updateFirst p f xs := by
        simp [updateFirst, hpx]
      rw [hred, List.find?_cons_of_neg _ hneg]
      exact ih h

theorem roomIdsUnique_inj (rooms : List Room) (hu : roomIdsUnique rooms = true) :
    ∀ x ∈ rooms, ∀ y ∈ rooms, x.roomId = y.roomId → x = y := by
  induction rooms with
  | nil => intro x hx; simp at hx
  | cons a as ih =>
    simp only [roomIdsUnique, Bool.and_eq_true, Bool.not_eq_true'] at hu
    obtain ⟨hna, hrest⟩ := hu
    intro x hx y hy hxy
    rcases List.mem_cons.mp hx with rfl | hx' <;>
      rcases List.mem_cons.mp hy with rfl | hy'
    · rfl
    · exfalso
      have : as.any (fun r => r.roomId == x.roomId) = true :=
        List.any_eq_true.mpr ⟨y, hy', by simp [hxy]⟩
      rw [this] at hna; exact Bool.noConfusion hna
    · exfalso
      have : as.any (fun r => r.roomId == y.roomId) = true :=
        List.any_eq_true.mpr ⟨x, hx', by simp [hxy]⟩
      rw [this] at hna; exact Bool.noConfusion hna
    · exact ih hrest x hx' y hy' hxy

theorem findActiveRoom_eq_none_of_inactive (rooms : List Room) (r : Room)
    (hu : roomIdsUnique rooms = true) (hr : r ∈ rooms) (hia : r.isActive = false) :
    findActiveRoom rooms r.roomId = none := by
  unfold findActiveRoom
  rw [List.find?_eq_none]
  intro x hx hpx
  simp only [Bool.and_eq_true, beq_iff_eq] at hpx
  obtain ⟨hid, hact⟩ := hpx
  have := roomIdsUnique_inj rooms hu x hx r hr hid
  subst this
  rw [hia] at hact
  exact Bool.noConfusion hact

theorem mem_saveRoom (rooms : List Room) (roomId : String) (room' : Room) (x : Room)
    (hx : x ∈ saveRoom rooms roomId room') : x ∈ rooms ∨ x = room' := by
  rcases mem_updateFirst _ _ _ _ hx with h | ⟨y, _, hxy⟩
  · exact Or.inl h
  · exact Or.inr hxy

theorem mem_saveRoom_of_inactive (rooms : List Room) (roomId : String)
    (room' : Room) (r : Room) (hia : r.isActive = false) (hr : r ∈ rooms) :
    r ∈ saveRoom rooms roomId room' :=
  mem_updateFirst_of_neg _ _ _ _ (by simp [hia]) hr

theorem findActiveRoom_saveRoom (rooms : List Room) (roomId : String)
    (room room' : Room) (h : findActiveRoom rooms roomId = some room)
    (hid : room'.roomId = roomId) (hact : room'.isActive = true) :
    findActiveRoom (saveRoom rooms roomId room') roomId = some room' :=
  find?_updateFirst _ _ _ _ h (by simp [hid, hact])

theorem logGameEvent_rooms (ok : Bool) (st : ManagerState)
    (rid uid ty : String) (d : EventData) :
    (logGameEvent ok st rid uid ty d).rooms = st.rooms := by
  cases ok <;> rfl

theorem logGameEvent_users (ok : Bool) (st : ManagerState)
    (rid uid ty : String) (d : EventData) :
    (logGameEvent ok st rid uid ty d).users = st.users := by
  cases ok <;> rfl

theorem logGameEvent_activeRooms (ok : Bool) (st : ManagerState)
    (rid uid ty : String) (d : EventData) :
    (logGameEvent ok st rid uid ty d).activeRooms = st.activeRooms := by
  cases ok <;> rfl

theorem logGameEvent_connectedPlayers (ok : Bool) (st : ManagerState)
    (rid uid ty : String) (d : EventData) :
    (logGameEvent ok st rid uid ty d).connectedPlayers = st.connectedPlayers := by
  cases ok <;> rfl

theorem logGameEvent_events (ok : Bool) (st : ManagerState)
    (rid uid ty : String) (d : EventData) :
    (logGameEvent ok st rid uid ty d).events =
      if ok then st.events ++ [⟨rid, uid, ty, d⟩] else st.events := by
  cases ok <;> rfl

/-- An active two-player room used as a concrete input in witnesses. -/
def rmA : Room :=
  { roomId := "r1", name := "den", hostUserId := "h1"
    players := [⟨"h1", "Host", 100, 100, true, 0⟩, ⟨"u2", "Ann", 100, 100, true, 0⟩]
    maxPlayers := 5, currentHouse := 1, currentFloor := 1
    activeTasks := ["B"], completedTasks := ["A"]
    isActive := true, gameStarted := false, lastActivity := 0 }

/-- Manager state holding only `rmA`. -/
def stA : ManagerState :=
  { rooms := [rmA], users := [], events := [], activeRooms := []
    connectedPlayers := [] }

/-- An active room already at the configured capacity (5 players). -/
def rmFull : Room :=
  { rmA with
    roomId := "r5"
    players := [⟨"h1", "Host", 100, 100, true, 0⟩, ⟨"u2", "Ann", 100, 100, true, 0⟩,
                ⟨"u3", "Bix", 100, 100, true, 0⟩, ⟨"u4", "Cal", 100, 100, true, 0⟩,
                ⟨"u5", "Dee", 100, 100, true, 0⟩] }

/-- Manager state holding only the full room `rmFull`. -/
def stFull : ManagerState :=
  { rooms := [rmFull], users := [], events := [], activeRooms := []
    connectedPlayers := [] }

/-- The empty manager state. -/
def stEmpty : ManagerState :=
  { rooms := [], users := [], events := [], activeRooms := [], connectedPlayers := [] }

/-- C1: joinRoom never pushes a roster past the configured maximum
(MAX_PLAYERS_PER_ROOM = 5): the bound is preserved on every room of the
state, and a join against a room whose roster is already at capacity
returns false and leaves the whole state unchanged. -/
theorem c1_joinRoom_capacity (appendOk : Bool) (st : ManagerState)
    (roomId userId username : String) (now : Nat) :
    config.MAX_PLAYERS_PER_ROOM = 5 ∧
    ((∀ r ∈ st.rooms, r.players.length ≤ config.MAX_PLAYERS_PER_ROOM) →
      ∀ r' ∈ (joinRoom appendOk st roomId userId username now).1.rooms,
        r'.players.length ≤ config.MAX_PLAYERS_PER_ROOM) ∧
    (∀ room, findActiveRoom st.rooms roomId = some room →
      config.MAX_PLAYERS_PER_ROOM ≤ room.players.length →
      joinRoom appendOk st roomId userId username now = (st, false)) := by
  refine ⟨rfl, ?_, ?_⟩
  · intro hall r' hr'
    cases hfind : findActiveRoom st.rooms roomId with
    | none =>
      simp only [joinRoom, hfind] at hr'
      exact hall r' hr'
    | some room =>
      by_cases hfull : room.players.length ≥ config.MAX_PLAYERS_PER_ROOM
      · simp only [joinRoom, hfind, if_pos hfull] at hr'
        exact hall r' hr'
      · simp only [joinRoom, hfind, if_neg hfull, logGameEvent_rooms] at hr'
        rcases mem_saveRoom _ _ _ _ hr' with hmem | rfl
        · exact hall r' hmem
        · have hlen := hall room (List.mem_of_find?_eq_some hfind)
          have hlt : room.players.length < config.MAX_PLAYERS_PER_ROOM :=
            lt_of_not_ge hfull
          cases hany : room.players.any (fun p => p.userId == userId) with
          | true => simpa [hany, updateFirst_length] using hlen
          | false =>
            simp only [hany, Bool.false_eq_true, if_false, List.length_append,
              List.length_cons, List.length_nil]
            omega
  · intro room hfind hfull
    simp [joinRoom, hfind, hfull]

/-- C1 witness: in a 5-player room a sixth join is rejected unchanged, and
the bound is preserved on the resulting state. -/
theorem c1_joinRoom_capacity_witness :
    joinRoom true stFull "r5" "u6" "Eve" 7 = (stFull, false) ∧
    ∀ r' ∈ (joinRoom true stFull "r5" "u6" "Eve" 7).1.rooms,
      r'.players.length ≤ config.MAX_PLAYERS_PER_ROOM := by
  constructor
  · exact (c1_joinRoom_capacity true stFull "r5" "u6" "Eve" 7).2.2 rmFull
      (by decide) (by decide)
  · exact (c1_joinRoom_capacity true stFull "r5" "u6" "Eve" 7).2.1 (by decide)

/-- C5: createRoom is idempotent per host: if the host already owns an
active session, createRoom returns that session's id and changes nothing;
a new room document is allocated (appended) only when the host owns no
active session. -/
theorem c5_createRoom_idempotent (appendOk : Bool) (st : ManagerState)
    (roomName hostUserId hostUsername newRoomId : String) (now : Nat) :
    (∀ r, findActiveRoomByHost st.rooms hostUserId = some r →
      createRoom appendOk st roomName hostUserId hostUsername newRoomId now =
        (st, some r.roomId)) ∧
    (findActiveRoomByHost st.rooms hostUserId = none →
      (createRoom appendOk st roomName hostUserId hostUsername newRoomId now).2 =
        some newRoomId ∧
      (createRoom appendOk st roomName hostUserId hostUsername newRoomId now).1.rooms =
        st.rooms ++ [newRoomDoc roomName hostUserId hostUsername newRoomId now]) := by
  constructor
  · intro r hr
    simp [createRoom, hr]
  · intro hnone
    refine ⟨?_, ?_⟩
    · simp [createRoom, hnone, newRoomDoc]
    · simp [createRoom, hnone, logGameEvent_rooms, newRoomDoc]

/-- C5 witness: with host h1 already owning active room r1, a retried
create returns r1 and changes nothing; on the empty state a room is
allocated. -/
theorem c5_createRoom_idempotent_witness :
    createRoom true stA "again" "h1" "Host" "r9" 9 = (stA, some "r1") ∧
    (createRoom true stEmpty "fresh" "h2" "Hal" "r7" 3).2 = some "r7" := by
  constructor
  · exact (c5_createRoom_idempotent true stA "again" "h1" "Host" "r9" 9).1 rmA
      (by decide)
  · exact ((c5_createRoom_idempotent true stEmpty "fresh" "h2" "Hal" "r7" 3).2
      (by decide)).1

/-- C2: completeTask is idempotent per task id: when the task id is already
in the session's completed set the call returns false and changes nothing
(no duplicate event); the first completion returns true, appends exactly
one task_complete event, and a repeat of the same task id afterwards
returns false and changes nothing. -/
theorem c2_completeTask_idempotent (appendOk : Bool) (st : ManagerState)
    (roomId userId taskId : String) (now : Nat) (room : Room)
    (hfind : findActiveRoom st.rooms roomId = some room) :
    (room.completedTasks.contains taskId = true →
      completeTask appendOk st roomId userId taskId now = (st, false)) ∧
    (room.completedTasks.contains taskId = false →
      (completeTask appendOk st roomId userId taskId now).2 = true ∧
      (completeTask appendOk st roomId userId taskId now).1.events =
        (if appendOk then
          st.events ++ [⟨roomId, userId, "task_complete", .taskComplete taskId⟩]
         else st.events) ∧
      (∀ userId2 now2 ok2,
        completeTask ok2 (completeTask appendOk st roomId userId taskId now).1
            roomId userId2 taskId now2 =
          ((completeTask appendOk st roomId userId taskId now).1, false))) := by
  have hfind0 : st.rooms.find? (fun r => r.roomId == roomId && r.isActive) =
      some room := hfind
  have hp := List.find?_some hfind0
  simp only [Bool.and_eq_true, beq_iff_eq] at hp
  obtain ⟨hid, hact⟩ := hp
  constructor
  · intro hc
    have hcm : taskId ∈ room.completedTasks := by simpa using hc
    simp [completeTask, hfind, hcm]
  · intro hc
    have hcm : taskId ∉ room.completedTasks := by simpa using hc
    refine ⟨?_, ?_, ?_⟩
    · simp [completeTask, hfind, hcm]
    · cases appendOk <;> simp [completeTask, hfind, hcm, logGameEvent]
    · intro userId2 now2 ok2
      set st1 := (completeTask appendOk st roomId userId taskId now).1 with hst1
      have hrooms1 : st1.rooms =
          saveRoom st.rooms roomId
            { room with
              completedTasks := room.completedTasks ++ [taskId]
              activeTasks := room.activeTasks.filter (fun id => id != taskId)
              lastActivity := now } := by
        rw [hst1]
        simp [completeTask, hfind, hcm, logGameEvent_rooms]
      have hfind2 : findActiveRoom st1.rooms roomId =
          some { room with
            completedTasks := room.completedTasks ++ [taskId]
            activeTasks := room.activeTasks.filter (fun id => id != taskId)
            lastActivity := now } := by
        rw [hrooms1]
        exact findActiveRoom_saveRoom _ _ _ _ hfind hid hact
      simp [completeTask, hfind2]

/-- C2 witness: in room r1 (completed = [A], active = [B]) completing A
again returns false unchanged; completing B returns true. -/
theorem c2_completeTask_idempotent_witness :
    completeTask true stA "r1" "u2" "A" 3 = (stA, false) ∧
    (completeTask true stA "r1" "u2" "B" 3).2 = true := by
  constructor
  · exact (c2_completeTask_idempotent true stA "r1" "u2" "A" 3 rmA
      (by decide)).1 (by decide)
  · exact ((c2_completeTask_idempotent true stA "r1" "u2" "B" 3 rmA
      (by decide)).2 (by decide)).1

/-- C3: floor completion is derived, not stored: checkFloorCompletion
returns true exactly when every catalog task id for the room's current
(house, floor) lies in the room's completed-task set. -/
theorem c3_checkFloorCompletion_iff (appendOk : Bool) (catalog : List TaskRec)
    (st : ManagerState) (roomId : String) (room : Room)
    (hfind : findActiveRoom st.rooms roomId = some room) :
    (checkFloorCompletion appendOk catalog st roomId).2 = true ↔
      ∀ t ∈ catalog, t.houseId = room.currentHouse → t.floor = room.currentFloor →
        t.taskId ∈ room.completedTasks := by
  simp only [checkFloorCompletion, hfind]
  simp [List.all_eq_true, List.mem_filter, List.mem_map]
  constructor
  · intro h t ht hhouse hfloor
    exact h t.taskId t ht hhouse hfloor rfl
  · intro h tid t ht hhouse hfloor htid
    exact htid ▸ h t ht hhouse hfloor

/-- Task catalog with tasks A and B on house 1, floor 1. -/
def catAB : List TaskRec := [⟨"A", 1, 1⟩, ⟨"B", 1, 1⟩]

/-- Copy of `rmA` with both catalog tasks completed. -/
def rmAB : Room := { rmA with completedTasks := ["A", "B"], activeTasks := [] }

/-- Manager state holding only `rmAB`. -/
def stAB : ManagerState := { stA with rooms := [rmAB] }

/-- C3 witness: with catalog {A, B} for floor 1, a room having completed
only A reports false and a room having completed A and B reports true. -/
theorem c3_checkFloorCompletion_iff_witness :
    (checkFloorCompletion true catAB stA "r1").2 = false ∧
    (checkFloorCompletion true catAB stAB "r1").2 = true := by
  constructor
  · have h := c3_checkFloorCompletion_iff true catAB stA "r1" rmA (by decide)
    have hne : ¬ ((checkFloorCompletion true catAB stA "r1").2 = true) := by
      rw [h]; decide
    simpa using hne
  · exact (c3_checkFloorCompletion_iff true catAB stAB "r1" rmAB
      (by decide)).mpr (by decide)

/-- C4 counterexample: room r1 sits at house 1, floor 1 with task A (of
catalog `catAB` for that floor) completed.  After changeHouse to house 2,
a completeTask for the old floor's task id A is not rejected as stale:
completeTask never consults the task catalog, so the call reports
applied=true and writes A into the new coordinate's completed set. -/
theorem c4_stale_counterexample :
    (completeTask true (changeHouse true stA "r1" 2 1).1 "r1" "u2" "A" 2).2 = true ∧
    ((findActiveRoom
        (completeTask true (changeHouse true stA "r1" 2 1).1 "r1" "u2" "A" 2).1.rooms
        "r1").map (fun r => (r.currentHouse, r.completedTasks))) =
      some (2, ["A"]) := by
  constructor
  · decide
  · decide

/-- C4 amended: changeHouse does reset the completed-task and active-task
sets to empty for the new coordinate, but a subsequent completeTask for a
task id of the previous (house, floor) is applied afresh (applied=true)
rather than rejected as stale, because completeTask checks only the (now
cleared) completed set and never the catalog. -/
theorem c4_changeHouse_resets (appendOk : Bool) (st : ManagerState)
    (roomId : String) (houseId : Int) (now : Nat) (room : Room)
    (hfind : findActiveRoom st.rooms roomId = some room) :
    findActiveRoom (changeHouse appendOk st roomId houseId now).1.rooms roomId =
      some { room with
        currentHouse := houseId, currentFloor := 1
        completedTasks := [], activeTasks := [], lastActivity := now } ∧
    (∀ taskId userId now2 ok2,
      (completeTask ok2 (changeHouse appendOk st roomId houseId now).1
        roomId userId taskId now2).2 = true) := by
  have hfind0 : st.rooms.find? (fun r => r.roomId == roomId && r.isActive) =
      some room := hfind
  have hp := List.find?_some hfind0
  simp only [Bool.and_eq_true, beq_iff_eq] at hp
  obtain ⟨hid, hact⟩ := hp
  have hrooms1 : (changeHouse appendOk st roomId houseId now).1.rooms =
      saveRoom st.rooms roomId
        { room with
          currentHouse := houseId, currentFloor := 1
          completedTasks := [], activeTasks := [], lastActivity := now } := by
    simp [changeHouse, hfind, logGameEvent_rooms]
  have hfind2 : findActiveRoom
      (changeHouse appendOk st roomId houseId now).1.rooms roomId =
      some { room with
        currentHouse := houseId, currentFloor := 1
        completedTasks := [], activeTasks := [], lastActivity := now } := by
    rw [hrooms1]
    exact findActiveRoom_saveRoom _ _ _ _ hfind hid hact
  refine ⟨hfind2, ?_⟩
  intro taskId userId now2 ok2
  set st1 := (changeHouse appendOk st roomId houseId now).1 with hst1
  simp [completeTask, hfind2]

/-- C6: an inactive session is terminal: with unique room ids, every
mutation addressed to an inactive room fails with false and leaves the
entire state unchanged, and no operation on any room id ever alters (in
particular reactivates) the inactive room's stored document. -/
theorem c6_inactive_terminal (st : ManagerState) (r : Room)
    (hu : roomIdsUnique st.rooms = true) (hr : r ∈ st.rooms)
    (hia : r.isActive = false) (appendOk : Bool)
    (userId username taskId : String) (houseId x y : Int) (now : Nat) :
    (joinRoom appendOk st r.roomId userId username now = (st, false) ∧
     leaveRoom appendOk st r.roomId userId now = (st, false) ∧
     updatePlayerPosition st r.roomId userId x y now = (st, false) ∧
     completeTask appendOk st r.roomId userId taskId now = (st, false) ∧
     changeHouse appendOk st r.roomId houseId now = (st, false)) ∧
    (∀ roomId2 userId2 username2 taskId2 now2 ok2 houseId2 x2 y2,
      r ∈ (joinRoom ok2 st roomId2 userId2 username2 now2).1.rooms ∧
      r ∈ (leaveRoom ok2 st roomId2 userId2 now2).1.rooms ∧
      r ∈ (updatePlayerPosition st roomId2 userId2 x2 y2 now2).1.rooms ∧
      r ∈ (completeTask ok2 st roomId2 userId2 taskId2 now2).1.rooms ∧
      r ∈ (changeHouse ok2 st roomId2 houseId2 now2).1.rooms) := by
  have hnone := findActiveRoom_eq_none_of_inactive st.rooms r hu hr hia
  constructor
  · refine ⟨?_, ?_, ?_, ?_, ?_⟩
    · simp [joinRoom, hnone]
    · simp [leaveRoom, hnone]
    · simp [updatePlayerPosition, hnone]
    · simp [completeTask, hnone]
    · simp [changeHouse, hnone]
  · intro roomId2 userId2 username2 taskId2 now2 ok2 houseId2 x2 y2
    refine ⟨?_, ?_, ?_, ?_, ?_⟩
    · cases hf : findActiveRoom st.rooms roomId2 with
      | none => simpa [joinRoom, hf] using hr
      | some room =>
        by_cases hfull : room.players.length ≥ config.MAX_PLAYERS_PER_ROOM
        · simpa [joinRoom, hf, if_pos hfull] using hr
        · simp only [joinRoom, hf, if_neg hfull, logGameEvent_rooms]
          exact mem_saveRoom_of_inactive _ _ _ _ hia hr
    · cases hf : findActiveRoom st.rooms roomId2 with
      | none => simpa [leaveRoom, hf] using hr
      | some room =>
        simp only [leaveRoom, hf, logGameEvent_rooms]
        exact mem_saveRoom_of_inactive _ _ _ _ hia hr
    · cases hf : findActiveRoom st.rooms roomId2 with
      | none => simpa [updatePlayerPosition, hf] using hr
      | some room =>
        cases hany : room.players.any (fun p => p.userId == userId2) with
        | true =>
          simp only [updatePlayerPosition, hf, hany, if_true]
          exact mem_saveRoom_of_inactive _ _ _ _ hia hr
        | false =>
          simpa [updatePlayerPosition, hf, hany] using hr
    · cases hf : findActiveRoom st.rooms roomId2 with
      | none => simpa [completeTask, hf] using hr
      | some room =>
        by_cases hc : taskId2 ∈ room.completedTasks
        · simpa [completeTask, hf, hc] using hr
        · simp [completeTask, hf, hc, logGameEvent_rooms]
          exact mem_saveRoom_of_inactive _ _ _ _ hia hr
    · cases hf : findActiveRoom st.rooms roomId2 with
      | none => simpa [changeHouse, hf] using hr
      | some room =>
        simp only [changeHouse, hf, logGameEvent_rooms]
        exact mem_saveRoom_of_inactive _ _ _ _ hia hr

/-- An inactive (closed) copy of room r1, and a state containing it. -/
def rmClosed : Room := { rmA with isActive := false }

/-- Manager state holding only the inactive room `rmClosed`. -/
def stClosed : ManagerState := { stA with rooms := [rmClosed] }

/-- C6 witness: every mutation against the closed room r1 returns false
and leaves the state untouched. -/
theorem c6_inactive_terminal_witness :
    joinRoom true stClosed "r1" "u9" "Nia" 4 = (stClosed, false) ∧
    completeTask true stClosed "r1" "u9" "B" 4 = (stClosed, false) := by
  have h := c6_inactive_terminal stClosed rmClosed (by decide) (by decide)
    (by decide) true "u9" "Nia" "B" 2 0 0 4
  exact ⟨h.1.1, h.1.2.2.2.1⟩

/-- Connection state where u2 holds a live socket and is mapped to r1. -/
def connA : ConnectionState :=
  { activeConnections := ["h1", "u2"], userRooms := [("h1", "r1"), ("u2", "r1")] }

/-- C7 counterexample: with u2 connected and occupying r1 (state `stA`),
the transport-disconnect handler removes u2 from r1's roster immediately:
afterwards the roster holds only h1 (still an active room), so the
participant was removed directly, not marked inactive pending a grace
window. -/
theorem c7_disconnect_counterexample :
    ((handleDisconnect true stA connA (some "u2") 5).1.rooms.map
      (fun r => (r.isActive, r.players.map (fun p => p.userId)))) =
      [(true, ["h1"])] ∧
    (handleDisconnect true stA connA (some "u2") 5).2.userRooms = [("h1", "r1")] := by
  constructor
  · decide
  · decide

/-- C7 amended: a transport disconnect of an identity that occupies a room
issues the leave mutation immediately (there is no grace window and no
inactive marking): the handler behaves exactly as leaveRoom plus deletion
of the connection-manager entries, appends exactly one player_leave event,
and no room of the resulting state retains a roster entry for the
identity unless that room was untouched. -/
theorem c7_disconnect_immediate (appendOk : Bool) (st : ManagerState)
    (conn : ConnectionState) (uid roomId : String) (room : Room) (now : Nat)
    (hmap : assocGet conn.userRooms uid = some roomId)
    (hfind : findActiveRoom st.rooms roomId = some room) :
    handleDisconnect appendOk st conn (some uid) now =
      ((leaveRoom appendOk st roomId uid now).1, connDisconnect conn uid) ∧
    (appendOk = true →
      (handleDisconnect appendOk st conn (some uid) now).1.events =
        st.events ++ [⟨roomId, uid, "player_leave", .playerLeave⟩]) ∧
    (∀ r' ∈ (handleDisconnect appendOk st conn (some uid) now).1.rooms,
      r' ∈ st.rooms ∨ ∀ p ∈ r'.players, p.userId ≠ uid) := by
  have hhd : handleDisconnect appendOk st conn (some uid) now =
      ((leaveRoom appendOk st roomId uid now).1, connDisconnect conn uid) := by
    simp [handleDisconnect, hmap]
  refine ⟨hhd, ?_, ?_⟩
  · intro hok
    subst hok
    rw [hhd]
    simp [leaveRoom, hfind, logGameEvent]
  · intro r' hr'
    rw [hhd] at hr'
    simp only [leaveRoom, hfind, logGameEvent_rooms] at hr'
    rcases mem_saveRoom _ _ _ _ hr' with hmem | rfl
    · exact Or.inl hmem
    · refine Or.inr ?_
      intro p hp
      have := List.of_mem_filter hp
      simpa using this

/-- C7 witness: the amended behaviour at the concrete input of the
counterexample state. -/
theorem c7_disconnect_immediate_witness :
    handleDisconnect true stA connA (some "u2") 5 =
      ((leaveRoom true stA "r1" "u2" 5).1, connDisconnect connA "u2") ∧
    (handleDisconnect true stA connA (some "u2") 5).1.events =
      stA.events ++ [⟨"r1", "u2", "player_leave", .playerLeave⟩] := by
  have h := c7_disconnect_immediate true stA connA "u2" "r1" rmA 5
    (by decide) (by decide)
  exact ⟨h.1, h.2.1 rfl⟩

/-- C8 counterexample: when u2 leaves room r1 (roster h1, u2), the room
stays active yet u2's roster entry is physically deleted — not retained as
an inactive participant for audit. -/
theorem c8_leave_counterexample :
    ((leaveRoom true stA "r1" "u2" 3).1.rooms.map
      (fun r => (r.isActive, r.players.map (fun p => p.userId)))) =
      [(true, ["h1"])] ∧
    (leaveRoom true stA "r1" "u2" 3).2 = true := by
  constructor
  · decide
  · decide

/-- C8 amended: leaveRoom physically removes the participant's entry from
the roster at once (nothing is retained for audit); the session is
additionally deactivated when the leaver is the host (or the roster
empties), but a non-host leave keeps the session active with the entry
gone. -/
theorem c8_leaveRoom_removes (appendOk : Bool) (st : ManagerState)
    (roomId userId : String) (now : Nat) (room : Room)
    (hfind : findActiveRoom st.rooms roomId = some room) :
    (leaveRoom appendOk st roomId userId now).2 = true ∧
    (∀ r' ∈ (leaveRoom appendOk st roomId userId now).1.rooms,
      r' ∈ st.rooms ∨ ∀ p ∈ r'.players, p.userId ≠ userId) ∧
    (room.hostUserId = userId →
      ∀ r' ∈ (leaveRoom appendOk st roomId userId now).1.rooms,
        r' ∈ st.rooms ∨ r'.isActive = false) := by
  refine ⟨?_, ?_, ?_⟩
  · simp [leaveRoom, hfind]
  · intro r' hr'
    simp only [leaveRoom, hfind, logGameEvent_rooms] at hr'
    rcases mem_saveRoom _ _ _ _ hr' with hmem | rfl
    · exact Or.inl hmem
    · refine Or.inr ?_
      intro p hp
      have := List.of_mem_filter hp
      simpa using this
  · intro hhost r' hr'
    simp only [leaveRoom, hfind, logGameEvent_rooms] at hr'
    rcases mem_saveRoom _ _ _ _ hr' with hmem | rfl
    · exact Or.inl hmem
    · refine Or.inr ?_
      simp [hhost]

/-- C8 witness: the amended behaviour at the counterexample input, plus a
host leave deactivating the session. -/
theorem c8_leaveRoom_removes_witness :
    (leaveRoom true stA "r1" "u2" 3).2 = true ∧
    (∀ r' ∈ (leaveRoom true stA "r1" "h1" 3).1.rooms,
      r' ∈ stA.rooms ∨ r'.isActive = false) := by
  constructor
  · exact (c8_leaveRoom_removes true stA "r1" "u2" 3 rmA (by decide)).1
  · exact (c8_leaveRoom_removes true stA "r1" "h1" 3 rmA (by decide)).2.2 rfl

/-- C9: event-log appending is best-effort: for each mutation (create,
join, leave, complete-task, change-house) the durable primary state
(rooms and users collections) and the returned value are identical
whether the event append succeeds or fails; a failed append neither
blocks nor reverses the mutation. -/
theorem c9_logging_best_effort (st : ManagerState)
    (roomName hostUserId hostUsername newRoomId roomId userId username
      taskId : String) (houseId : Int) (now : Nat) :
    ((createRoom false st roomName hostUserId hostUsername newRoomId now).2 =
       (createRoom true st roomName hostUserId hostUsername newRoomId now).2 ∧
     (createRoom false st roomName hostUserId hostUsername newRoomId now).1.rooms =
       (createRoom true st roomName hostUserId hostUsername newRoomId now).1.rooms ∧
     (createRoom false st roomName hostUserId hostUsername newRoomId now).1.users =
       (createRoom true st roomName hostUserId hostUsername newRoomId now).1.users) ∧
    ((joinRoom false st roomId userId username now).2 =
       (joinRoom true st roomId userId username now).2 ∧
     (joinRoom false st roomId userId username now).1.rooms =
       (joinRoom true st roomId userId username now).1.rooms ∧
     (joinRoom false st roomId userId username now).1.users =
       (joinRoom true st roomId userId username now).1.users) ∧
    ((leaveRoom false st roomId userId now).2 =
       (leaveRoom true st roomId userId now).2 ∧
     (leaveRoom false st roomId userId now).1.rooms =
       (leaveRoom true st roomId userId now).1.rooms ∧
     (leaveRoom false st roomId userId now).1.users =
       (leaveRoom true st roomId userId now).1.users) ∧
    ((completeTask false st roomId userId taskId now).2 =
       (completeTask true st roomId userId taskId now).2 ∧
     (completeTask false st roomId userId taskId now).1.rooms =
       (completeTask true st roomId userId taskId now).1.rooms ∧
     (completeTask false st roomId userId taskId now).1.users =
       (completeTask true st roomId userId taskId now).1.users) ∧
    ((changeHouse false st roomId houseId now).2 =
       (changeHouse true st roomId houseId now).2 ∧
     (changeHouse false st roomId houseId now).1.rooms =
       (changeHouse true st roomId houseId now).1.rooms ∧
     (changeHouse false st roomId houseId now).1.users =
       (changeHouse true st roomId houseId now).1.users) := by
  refine ⟨?_, ?_, ?_, ?_, ?_⟩
  · cases hf : findActiveRoomByHost st.rooms hostUserId <;>
      simp [createRoom, hf, logGameEvent]
  · cases hf : findActiveRoom st.rooms roomId with
    | none => simp [joinRoom, hf]
    | some room =>
      by_cases hfull : room.players.length ≥ config.MAX_PLAYERS_PER_ROOM <;>
        simp [joinRoom, hf, hfull, logGameEvent]
  · cases hf : findActiveRoom st.rooms roomId <;>
      simp [leaveRoom, hf, logGameEvent]
  · cases hf : findActiveRoom st.rooms roomId with
    | none => simp [completeTask, hf]
    | some room =>
      by_cases hc : taskId ∈ room.completedTasks <;>
        simp [completeTask, hf, hc, logGameEvent]
  · cases hf : findActiveRoom st.rooms roomId <;>
      simp [changeHouse, hf, logGameEvent]

instance (r : Room) : Decidable (tasksDisjoint r) :=
  List.decidableBAll _ r.completedTasks

/-- C10: the completed-task and active-task sets stay disjoint: every
operation preserves disjointness on every room, and the first completion
of a task id both inserts it into completedTasks and removes it from
activeTasks of the saved room. -/
theorem c10_tasks_disjoint_invariant (st : ManagerState)
    (hall : ∀ r ∈ st.rooms, tasksDisjoint r) (appendOk : Bool)
    (roomName hostUserId hostUsername newRoomId roomId userId username
      taskId : String) (houseId x y : Int) (now : Nat) :
    (∀ r' ∈ (createRoom appendOk st roomName hostUserId hostUsername
        newRoomId now).1.rooms, tasksDisjoint r') ∧
    (∀ r' ∈ (joinRoom appendOk st roomId userId username now).1.rooms,
      tasksDisjoint r') ∧
    (∀ r' ∈ (leaveRoom appendOk st roomId userId now).1.rooms, tasksDisjoint r') ∧
    (∀ r' ∈ (updatePlayerPosition st roomId userId x y now).1.rooms,
      tasksDisjoint r') ∧
    (∀ r' ∈ (completeTask appendOk st roomId userId taskId now).1.rooms,
      tasksDisjoint r') ∧
    (∀ r' ∈ (changeHouse appendOk st roomId houseId now).1.rooms,
      tasksDisjoint r') ∧
    (∀ room, findActiveRoom st.rooms roomId = some room →
      taskId ∉ room.completedTasks →
      ∀ r' ∈ (completeTask appendOk st roomId userId taskId now).1.rooms,
        r' ∈ st.rooms ∨ (taskId ∈ r'.completedTasks ∧ taskId ∉ r'.activeTasks)) := by
  refine ⟨?_, ?_, ?_, ?_, ?_, ?_, ?_⟩
  · intro r' hr'
    cases hf : findActiveRoomByHost st.rooms hostUserId with
    | some room =>
      simp only [createRoom, hf] at hr'
      exact hall r' hr'
    | none =>
      simp [createRoom, hf, logGameEvent_rooms] at hr'
      rcases hr' with hmem | rfl
      · exact hall r' hmem
      · intro t ht
        simp [newRoomDoc] at ht
  · intro r' hr'
    cases hf : findActiveRoom st.rooms roomId with
    | none =>
      simp only [joinRoom, hf] at hr'
      exact hall r' hr'
    | some room =>
      by_cases hfull : room.players.length ≥ config.MAX_PLAYERS_PER_ROOM
      · simp only [joinRoom, hf, if_pos hfull] at hr'
        exact hall r' hr'
      · simp only [joinRoom, hf, if_neg hfull, logGameEvent_rooms] at hr'
        rcases mem_saveRoom _ _ _ _ hr' with hmem | rfl
        · exact hall r' hmem
        · exact hall room (List.mem_of_find?_eq_some hf)
  · intro r' hr'
    cases hf : findActiveRoom st.rooms roomId with
    | none =>
      simp only [leaveRoom, hf] at hr'
      exact hall r' hr'
    | some room =>
      simp only [leaveRoom, hf, logGameEvent_rooms] at hr'
      rcases mem_saveRoom _ _ _ _ hr' with hmem | rfl
      · exact hall r' hmem
      · exact hall room (List.mem_of_find?_eq_some hf)
  · intro r' hr'
    cases hf : findActiveRoom st.rooms roomId with
    | none =>
      simp only [updatePlayerPosition, hf] at hr'
      exact hall r' hr'
    | some room =>
      cases hany : room.players.any (fun p => p.userId == userId) with
      | false =>
        simp only [updatePlayerPosition, hf, hany, Bool.false_eq_true,
          if_false] at hr'
        exact hall r' hr'
      | true =>
        simp only [updatePlayerPosition, hf, hany, if_true] at hr'
        rcases mem_saveRoom _ _ _ _ hr' with hmem | rfl
        · exact hall r' hmem
        · exact hall room (List.mem_of_find?_eq_some hf)
  · intro r' hr'
    cases hf : findActiveRoom st.rooms roomId with
    | none =>
      simp only [completeTask, hf] at hr'
      exact hall r' hr'
    | some room =>
      by_cases hc : taskId ∈ room.completedTasks
      · simp [completeTask, hf, hc] at hr'
        exact hall r' hr'
      · simp [completeTask, hf, hc, logGameEvent_rooms] at hr'
        rcases mem_saveRoom _ _ _ _ hr' with hmem | rfl
        · exact hall r' hmem
        · intro t ht hta
          have hroom := hall room (List.mem_of_find?_eq_some hf)
          have hta' := List.of_mem_filter hta
          rcases List.mem_append.mp ht with htl | hts
          · exact hroom t htl (List.mem_of_mem_filter hta)
          · have : t = taskId := by simpa using hts
            subst this
            simp at hta'
  · intro r' hr'
    cases hf : findActiveRoom st.rooms roomId with
    | none =>
      simp only [changeHouse, hf] at hr'
      exact hall r' hr'
    | some room =>
      simp only [changeHouse, hf, logGameEvent_rooms] at hr'
      rcases mem_saveRoom _ _ _ _ hr' with hmem | rfl
      · exact hall r' hmem
      · intro t ht
        simp at ht
  · intro room hf hc r' hr'
    simp [completeTask, hf, hc, logGameEvent_rooms] at hr'
    rcases mem_saveRoom _ _ _ _ hr' with hmem | rfl
    · exact Or.inl hmem
    · refine Or.inr ⟨by simp, ?_⟩
      intro hta
      have := List.of_mem_filter hta
      simp at this

/-- C10 witness: starting from `stA` (completed = [A], active = [B],
disjoint), the first completion of B and a house change both keep every
room's task sets disjoint. -/
theorem c10_tasks_disjoint_invariant_witness :
    (∀ r' ∈ (completeTask true stA "r1" "u2" "B" 3).1.rooms, tasksDisjoint r') ∧
    (∀ r' ∈ (changeHouse true stA "r1" 2 3).1.rooms, tasksDisjoint r') := by
  have h := c10_tasks_disjoint_invariant stA (by decide) true
    "n" "h9" "Hu" "r9" "r1" "u2" "Ann" "B" 2 0 0 3
  exact ⟨h.2.2.2.2.1, h.2.2.2.2.2.1⟩

/-- C4 witness: after changing room r1 to house 2 the task sets are
empty, and completing the old floor's task A is applied (true). -/
theorem c4_changeHouse_resets_witness :
    findActiveRoom (changeHouse true stA "r1" 2 1).1.rooms "r1" =
      some { rmA with
        currentHouse := 2, currentFloor := 1
        completedTasks := [], activeTasks := [], lastActivity := 1 } ∧
    (completeTask true (changeHouse true stA "r1" 2 1).1 "r1" "u2" "A" 2).2 =
      true := by
  have h := c4_changeHouse_resets true stA "r1" 2 1 rmA (by decide)
  exact ⟨h.1, h.2 "A" "u2" 2 true⟩
